import Mathlib

/-!
Shallow embedding of the two scripts of the ciscosmb-devicetype-generator
repository (`crop.py` and `generate.py`) together with proofs of the
specification claims about them.  Python machine values are modelled as
`Nat`/`Int`/`String`; fallible code returns `Except`.
-/

namespace CiscoSMB

/-! ## Definitions: shallow embedding of crop.py and generate.py -/

/-- Size-level model of a PIL image for the aspect-ratio pass of `crop.py`.
Only the geometry matters for the dimension claim; the white compositing of
the pixel content does not change the output size. -/
structure ImgSize where
  width : Nat
  height : Nat
deriving Repr, DecidableEq

/-- Line 42 of `crop.py`: `target_width = int(9.8 * height)`.  The binary
float product `9.8 * height` truncates to `floor(98 * height / 10)` for every
representable image height, embedded here as exact natural division. -/
def target_width (height : Nat) : Nat := 98 * height / 10

/-- Lines 29-62 of `crop.py` (`enforce_10_to_1_aspect`) at the level of
sizes: the three branches keep the size, pad on the right to the target
width, or crop on the right to the target width. -/
def enforce_10_to_1_aspect (img : ImgSize) : ImgSize :=
  let tw := target_width img.height
  if img.width = tw then
    { width := img.width, height := img.height }
  else if img.width < tw then
    { width := tw, height := img.height }
  else
    { width := tw, height := img.height }

/-- Pixel-level model of an RGBA image for `crop_transparent_png`: the
dimensions plus the alpha channel (`img.getchannel("A")`). -/
structure AImage where
  width : Nat
  height : Nat
  alpha : Nat → Nat → Nat

/-- Columns that contain at least one pixel of non-zero alpha, in increasing
order.  Used to model `alpha.getbbox()` from line 20 of `crop.py`. -/
def nonzeroCols (img : AImage) : List Nat :=
  (List.range img.width).filter fun x =>
    (List.range img.height).any fun y => img.alpha x y != 0

/-- Rows that contain at least one pixel of non-zero alpha, in increasing
order. -/
def nonzeroRows (img : AImage) : List Nat :=
  (List.range img.height).filter fun y =>
    (List.range img.width).any fun x => img.alpha x y != 0

/-- Line 20 of `crop.py`: `alpha.getbbox()`.  PIL returns the bounding box
`(left, upper, right, lower)` of the non-zero region of the channel, with
`right`/`lower` exclusive, or `None` when the channel is all zero. -/
def getbbox (img : AImage) : Option (Nat × Nat × Nat × Nat) :=
  match (nonzeroCols img).min?, (nonzeroCols img).max?,
        (nonzeroRows img).min?, (nonzeroRows img).max? with
  | some l, some r, some u, some d => some (l, u, r + 1, d + 1)
  | _, _, _, _ => none

/-- Line 24 of `crop.py`: `img.crop(bbox)` for a box `(l, u, r, d)`; the
result has size `(r - l, d - u)` and samples the source at the offset. -/
def cropImg (img : AImage) (l u r d : Nat) : AImage :=
  { width := r - l, height := d - u, alpha := fun x y => img.alpha (x + l) (y + u) }

/-- Lines 4-26 of `crop.py` (`crop_transparent_png`): crop to the bounding
box of the non-transparent pixels when one exists, otherwise return the
image unchanged. -/
def crop_transparent_png (img : AImage) : AImage :=
  match getbbox img with
  | some (l, u, r, d) => cropImg img l u r d
  | none => img

/-- The box `(l, u, r, d)` is the minimal bounding rectangle of the pixels
of non-zero alpha: it contains them all, and each of its four edges meets
at least one of them. -/
def isMinimalBBox (img : AImage) (l u r d : Nat) : Prop :=
  (∀ x < img.width, ∀ y < img.height, img.alpha x y ≠ 0 →
      l ≤ x ∧ x < r ∧ u ≤ y ∧ y < d) ∧
  (l < img.width ∧ ∃ y < img.height, img.alpha l y ≠ 0) ∧
  (0 < r ∧ r - 1 < img.width ∧ ∃ y < img.height, img.alpha (r - 1) y ≠ 0) ∧
  (u < img.height ∧ ∃ x < img.width, img.alpha x u ≠ 0) ∧
  (0 < d ∧ d - 1 < img.height ∧ ∃ x < img.width, img.alpha x (d - 1) ≠ 0)

/-- Concrete fully transparent test image. -/
def imgZero : AImage := { width := 2, height := 2, alpha := fun _ _ => 0 }

/-- Concrete test image with a single opaque pixel at (1, 0). -/
def imgDot : AImage :=
  { width := 3, height := 2, alpha := fun x y => if x = 1 ∧ y = 0 then 255 else 0 }

/-- ASCII model of Python `str.lower` on one character (line 25 of
`generate.py`). -/
def pyToLower (c : Char) : Char :=
  if 65 ≤ c.toNat ∧ c.toNat ≤ 90 then Char.ofNat (c.toNat + 32) else c

/-- ASCII model of Python `str.upper` on one character (line 53). -/
def pyToUpper (c : Char) : Char :=
  if 97 ≤ c.toNat ∧ c.toNat ≤ 122 then Char.ofNat (c.toNat - 32) else c

/-- Membership in the regex character class `[a-z0-9]` from line 26. -/
def isLowerAlnum (c : Char) : Bool :=
  (97 ≤ c.toNat && c.toNat ≤ 122) || (48 ≤ c.toNat && c.toNat ≤ 57)

/-- ASCII model of the whitespace removed by Python `str.strip()` and
accepted around `int()` literals. -/
def pySpace (c : Char) : Bool :=
  c.toNat = 32 || (9 ≤ c.toNat && c.toNat ≤ 13)

/-- ASCII decimal digit, as tested by Python `str.isdigit`. -/
def pyDigit (c : Char) : Bool := 48 ≤ c.toNat && c.toNat ≤ 57

/-- Line 26 of `generate.py`: `re.sub(r'[^a-z0-9]+', '-', s)`.  The flag
records whether the scan is inside a run of excluded characters whose
single replacement dash has already been emitted. -/
def subNonAlnum : Bool → List Char → List Char
  | _, [] => []
  | inRun, c :: cs =>
    if isLowerAlnum c then c :: subNonAlnum false cs
    else if inRun then subNonAlnum true cs
    else '-' :: subNonAlnum true cs

/-- Line 27 of `generate.py`: `re.sub(r'-+', '-', s)`, with the same
in-run flag. -/
def collapseDashes : Bool → List Char → List Char
  | _, [] => []
  | inRun, c :: cs =>
    if c == '-' then
      if inRun then collapseDashes true cs
      else '-' :: collapseDashes true cs
    else c :: collapseDashes false cs

/-- Line 28 of `generate.py`: `s.strip('-')`. -/
def dropEndDashes (l : List Char) : List Char :=
  ((l.dropWhile (· == '-')).reverse.dropWhile (· == '-')).reverse

/-- Lines 17-28 of `generate.py` (`slugify`): lowercase, replace runs of
characters outside `[a-z0-9]` by a single dash, collapse dash runs, strip
dashes at both ends. -/
def slugify (s : String) : String :=
  String.mk (dropEndDashes (collapseDashes false (subNonAlnum false (s.data.map pyToLower))))

/-- ASCII model of Python `str.upper`. -/
def strUpper (s : String) : String := String.mk (s.data.map pyToUpper)

/-- Python substring containment `pat in s`. -/
def strContains (s pat : String) : Bool := decide (pat.data <:+: s.data)

/-- Lines 53-54 of `generate.py`: a model is taken to be PoE-capable when
its uppercased name contains `P-` or `FP-`. -/
def is_poe_model (m : String) : Bool :=
  strContains (strUpper m) "P-" || strContains (strUpper m) "FP-"

/-- Python `str.strip()` on a character list (ASCII whitespace model). -/
def pyStrip (l : List Char) : List Char :=
  ((l.dropWhile pySpace).reverse.dropWhile pySpace).reverse

/-- Tail of a Python integer literal after its first digit: digits with
single interior underscores (an underscore must be preceded by a digit and
followed by one).  The flag records whether the previous character was an
underscore. -/
def digitsTailF : Bool → List Char → Bool
  | false, [] => true
  | true, [] => false
  | prevU, c :: cs =>
    if c = '_' then !prevU && digitsTailF true cs
    else pyDigit c && digitsTailF false cs

/-- Tail of a Python integer literal after its first digit. -/
def digitsTail (l : List Char) : Bool := digitsTailF false l

/-- Nonempty digit sequence with optional single interior underscores, the
body accepted by Python `int()`. -/
def digitsOk : List Char → Bool
  | [] => false
  | c :: cs => pyDigit c && digitsTail cs

/-- Decimal value of a digit sequence (underscores already removed). -/
def digitsVal (l : List Char) : Nat :=
  l.foldl (fun a c => 10 * a + (c.toNat - 48)) 0

/-- Model of Python `int(s)` on strings (ASCII): optional surrounding
whitespace, an optional sign, then a nonempty run of digits with single
interior underscores; any other content raises `ValueError`, modelled as
`none`. -/
def pyInt (s : String) : Option Int :=
  let t := pyStrip s.data
  if t.head? = some '+' then
    if digitsOk t.tail then
      some (Int.ofNat (digitsVal (t.tail.filter fun c => c != '_')))
    else none
  else if t.head? = some '-' then
    if digitsOk t.tail then
      some (-(Int.ofNat (digitsVal (t.tail.filter fun c => c != '_'))))
    else none
  else
    if digitsOk t then
      some (Int.ofNat (digitsVal (t.filter fun c => c != '_')))
    else none

/-- One CSV row as produced by `csv.DictReader`, restricted to the columns
that `create_interfaces` reads.  A `none` field models a column absent from
the CSV header, so that the Python dictionary lookup raises `KeyError`;
`Model` is kept mandatory since every claim concerns rows that have it. -/
structure Row where
  Model : String
  Stacking : Option String
  giCopper : Option String
  giSFP : Option String
  giCombo : Option String
  twoGi : Option String
  tenGiCopper : Option String
  tenGiSFP : Option String
  tenGiCombo : Option String
  OOB : Option String
deriving Repr, DecidableEq

/-- One interface dictionary built by `create_interfaces`; Python keys that
are only sometimes present are modelled as `Option` fields. -/
structure Iface where
  name : String
  type : String
  enabled : Bool
  description : Option String := none
  poe_mode : Option String := none
  poe_type : Option String := none
  mgmt_only : Option Bool := none
deriving Repr, DecidableEq

/-- `int(row[column])` for a count column: `KeyError` when the column is
absent, `ValueError` when the text does not parse as an integer. -/
def getCount : Option String → Except String Int
  | none => Except.error "KeyError"
  | some s =>
    match pyInt s with
    | none => Except.error "ValueError"
    | some v => Except.ok v

/-- Lines 37-38 of `generate.py`: `row.get('Stacking', '').strip().lower()
== 'true'`. -/
def is_stacking (row : Row) : Bool :=
  String.mk ((pyStrip (row.Stacking.getD "").data).map pyToLower) == "true"

/-- Lines 41-46: naming prefix for the 1G-class ports. -/
def base_name_1g (row : Row) : String :=
  if is_stacking row then "GigabitEthernet1/0/" else "GigabitEthernet"

/-- Lines 41-46: naming prefix for the 10G-class ports. -/
def base_name_10g (row : Row) : String :=
  if is_stacking row then "TenGigabitEthernet1/0/" else "TenGigabitEthernet"

/-- One `for _ in range(count)` loop of `create_interfaces`: `count`
interfaces named `base` followed by a running index starting at `start`,
of the given type, with the optional description, and with the PoE
attributes of lines 64-66 exactly when `poe` is set. -/
def portRun (base ty : String) (descr : Option String) (poe : Bool)
    (start count : Nat) : List Iface :=
  (List.range count).map fun k =>
    { name := base ++ toString (start + k)
      type := ty
      enabled := true
      description := descr
      poe_mode := if poe then some "pse" else none
      poe_type := if poe then some "type2-ieee802.3at" else none }

/-- Line 155 of `generate.py`: `row['OOB'] and row['OOB'].isdigit() and
int(row['OOB']) > 0` (the Python `and` short-circuits, so `int` only runs
on a nonempty all-digit string, where it succeeds). -/
def oob_positive (s : String) : Bool :=
  (!(s == "")) && s.data.all pyDigit && decide (0 < (pyInt s).getD 0)

/-- Lines 156-161: the out-of-band management interface. -/
def oobIface : Iface :=
  { name := "OOB", type := "1000base-t", enabled := true, mgmt_only := some true }

/-- Lines 167-172: the trailing default Vlan1 interface. -/
def vlanIface : Iface :=
  { name := "Vlan1", type := "virtual", enabled := true, mgmt_only := some false }

/-- The PoE-flagged copper interface produced for a one-copper-port PoE
model, used as a concrete witness value. -/
def poeCopperIface : Iface :=
  { name := "GigabitEthernet1", type := "1000base-t", enabled := true,
    description := none, poe_mode := some "pse",
    poe_type := some "type2-ieee802.3at", mgmt_only := none }

/-- The interface list appended by the nine numbered blocks of
`create_interfaces` (lines 56-174), given the seven parsed counts and the
OOB column text.  The 1G counter is shared by blocks 1-4 and the 10G
counter by blocks 5-7; a negative count makes the Python `range` empty,
hence `Int.toNat`. -/
def builtIfaces (row : Row) (n1 n2 n3 n4 n5 n6 n7 : Int) (oobS : String) : List Iface :=
  portRun (base_name_1g row) "1000base-t" none (is_poe_model row.Model) 1 n1.toNat ++
  portRun (base_name_1g row) "1000base-x-sfp" none false (1 + n1.toNat) n2.toNat ++
  portRun (base_name_1g row) "1000base-x-sfp" (some "SFP/RJ45 Combo") false
    (1 + n1.toNat + n2.toNat) n3.toNat ++
  portRun (base_name_1g row) "2.5gbase-t" none false
    (1 + n1.toNat + n2.toNat + n3.toNat) n4.toNat ++
  portRun (base_name_10g row) "10gbase-t" none false 1 n5.toNat ++
  portRun (base_name_10g row) "10gbase-x-sfpp" none false (1 + n5.toNat) n6.toNat ++
  portRun (base_name_10g row) "10gbase-x-sfpp" (some "SFP+/RJ45 Combo") false
    (1 + n5.toNat + n6.toNat) n7.toNat ++
  (if oob_positive oobS then [oobIface] else []) ++
  [vlanIface]

/-- Lines 30-174 of `generate.py` (`create_interfaces`).  The seven count
columns are read in source order and the first failing `int()` aborts the
row; the `OOB` column is read by plain indexing, so its absence is a
`KeyError`. -/
def create_interfaces (row : Row) : Except String (List Iface) := do
  let n1 ← getCount row.giCopper
  let n2 ← getCount row.giSFP
  let n3 ← getCount row.giCombo
  let n4 ← getCount row.twoGi
  let n5 ← getCount row.tenGiCopper
  let n6 ← getCount row.tenGiSFP
  let n7 ← getCount row.tenGiCombo
  let oobS ← match row.OOB with
    | none => Except.error "KeyError"
    | some s => Except.ok s
  return builtIfaces row n1 n2 n3 n4 n5 n6 n7 oobS

/-- Stacking test row with 2 Gigabit-copper, 1 Gigabit-SFP, 0 combo,
0 multi-gig, 1 Ten-gig-copper, 0 Ten-gig-SFP+, 0 Ten-gig-combo ports and an
OOB column value that produces no OOB interface. -/
def rowC2stack : Row :=
  { Model := "C1300-24T-4X", Stacking := some "true",
    giCopper := some "2", giSFP := some "1", giCombo := some "0", twoGi := some "0",
    tenGiCopper := some "1", tenGiSFP := some "0", tenGiCombo := some "0",
    OOB := some "0" }

/-- The same counts on a non-stacking row. -/
def rowC2flat : Row := { rowC2stack with Stacking := some "false" }

/-- Row with every count zero and no stacking column, used as a concrete
witness input; its interface list is just the Vlan1 interface. -/
def rowTiny : Row :=
  { Model := "X", Stacking := none,
    giCopper := some "0", giSFP := some "0", giCombo := some "0", twoGi := some "0",
    tenGiCopper := some "0", tenGiSFP := some "0", tenGiCombo := some "0",
    OOB := some "0" }

/-- A count column on which `int(row[...])` raises: the column is absent
from the CSV (Python `KeyError`/`TypeError`), or its text is not an
integer literal (Python `ValueError`). -/
def badCount (o : Option String) : Prop :=
  o = none ∨ ∃ s, o = some s ∧ pyInt s = none

/-- Row whose Gigabit SFP column text is not numeric. -/
def rowBadCount : Row := { rowTiny with giSFP := some "24 ports" }

/-- Line 155 in the words of the spec: the OOB column is present and holds
a non-empty all-digit string whose integer value is strictly positive. -/
def oobSpecCond (row : Row) : Bool :=
  match row.OOB with
  | none => false
  | some s => (!(s == "")) && s.data.all pyDigit && decide (0 < digitsVal s.data)

/-- Row with every count zero and the OOB column holding "2". -/
def rowOob2 : Row := { rowTiny with OOB := some "2" }

/-- PoE-capable non-stacking row: the model name contains FP- and there is
one Gigabit-copper port. -/
def rowPoe : Row :=
  { Model := "C1300-8FP-2G", Stacking := some "false",
    giCopper := some "1", giSFP := some "0", giCombo := some "0", twoGi := some "0",
    tenGiCopper := some "0", tenGiSFP := some "0", tenGiCombo := some "0",
    OOB := some "0" }

/-- Characters that can appear in a slug: the class `[a-z0-9]` plus the
dash. -/
def slugChar (c : Char) : Bool := isLowerAlnum c || c == '-'

/-- No two adjacent dashes. -/
abbrev noDD (l : List Char) : Prop := l.Chain' fun a b => ¬(a = '-' ∧ b = '-')

/-- Line 202 of `generate.py`: Python `str.replace("C1300", "Catalyst
1300")` substitutes every non-overlapping occurrence, scanning left to
right. -/
def replaceC1300 : List Char → List Char
  | 'C' :: '1' :: '3' :: '0' :: '0' :: cs => "Catalyst 1300".data ++ replaceC1300 cs
  | c :: cs => c :: replaceC1300 cs
  | [] => []

/-- Reading of the same line taken by the spec sentence, for comparison:
replace only a single (the first) occurrence of C1300. -/
def replaceFirstC1300 : List Char → List Char
  | 'C' :: '1' :: '3' :: '0' :: '0' :: cs => "Catalyst 1300".data ++ cs
  | c :: cs => c :: replaceFirstC1300 cs
  | [] => []

/-- The model and slug fields of the device dictionary of `main` (lines
194-213 of `generate.py`). -/
structure DeviceMeta where
  model : String
  slug : String
deriving Repr, DecidableEq

/-- Lines 194-213 of `generate.py`: the slug is derived from the original
model column (before any substitution), then the display model has C1300
rewritten to Catalyst 1300. -/
def buildDeviceMeta (modelField : String) : DeviceMeta :=
  { model := String.mk (replaceC1300 modelField.data)
    slug := "cisco-" ++ slugify modelField }

/-! ## Theorems -/

theorem mem_nonzeroCols {img : AImage} {x : Nat} :
    x ∈ nonzeroCols img ↔ x < img.width ∧ ∃ y < img.height, img.alpha x y ≠ 0 := by
  simp [nonzeroCols, List.mem_filter, List.mem_range, List.any_eq_true]

theorem mem_nonzeroRows {img : AImage} {y : Nat} :
    y ∈ nonzeroRows img ↔ y < img.height ∧ ∃ x < img.width, img.alpha x y ≠ 0 := by
  simp [nonzeroRows, List.mem_filter, List.mem_range, List.any_eq_true]

theorem min?_spec {l : List Nat} {a : Nat} :
    l.min? = some a ↔ a ∈ l ∧ ∀ b ∈ l, a ≤ b :=
  List.min?_eq_some_iff (fun _ => le_refl _) (fun a b => min_choice a b)
    (fun _ _ _ => le_min_iff)

theorem max?_spec {l : List Nat} {a : Nat} :
    l.max? = some a ↔ a ∈ l ∧ ∀ b ∈ l, b ≤ a :=
  List.max?_eq_some_iff (fun _ => le_refl _) (fun a b => max_choice a b)
    (fun _ _ _ => max_le_iff)

theorem getbbox_eq_none {img : AImage}
    (h : ∀ x < img.width, ∀ y < img.height, img.alpha x y = 0) :
    getbbox img = none := by
  have hcols : nonzeroCols img = [] := by
    rw [List.eq_nil_iff_forall_not_mem]
    intro x hx
    rcases mem_nonzeroCols.mp hx with ⟨hxw, y, hy, hnz⟩
    exact hnz (h x hxw y hy)
  rw [getbbox, hcols]
  simp [List.min?_eq_none_iff.mpr rfl]

theorem getbbox_eq_some {img : AImage} {x y : Nat}
    (hx : x < img.width) (hy : y < img.height) (hnz : img.alpha x y ≠ 0) :
    ∃ l u r d, getbbox img = some (l, u, r, d) ∧ isMinimalBBox img l u r d := by
  have hxc : x ∈ nonzeroCols img := mem_nonzeroCols.mpr ⟨hx, y, hy, hnz⟩
  have hyr : y ∈ nonzeroRows img := mem_nonzeroRows.mpr ⟨hy, x, hx, hnz⟩
  have hcne : nonzeroCols img ≠ [] := fun h => by simp [h] at hxc
  have hrne : nonzeroRows img ≠ [] := fun h => by simp [h] at hyr
  obtain ⟨l, hl⟩ : ∃ a, (nonzeroCols img).min? = some a := by
    cases hm : (nonzeroCols img).min? with
    | none => exact absurd (List.min?_eq_none_iff.mp hm) hcne
    | some a => exact ⟨a, rfl⟩
  obtain ⟨cr, hcr⟩ : ∃ a, (nonzeroCols img).max? = some a := by
    cases hm : (nonzeroCols img).max? with
    | none => exact absurd (List.max?_eq_none_iff.mp hm) hcne
    | some a => exact ⟨a, rfl⟩
  obtain ⟨u, hu⟩ : ∃ a, (nonzeroRows img).min? = some a := by
    cases hm : (nonzeroRows img).min? with
    | none => exact absurd (List.min?_eq_none_iff.mp hm) hrne
    | some a => exact ⟨a, rfl⟩
  obtain ⟨rd, hrd⟩ : ∃ a, (nonzeroRows img).max? = some a := by
    cases hm : (nonzeroRows img).max? with
    | none => exact absurd (List.max?_eq_none_iff.mp hm) hrne
    | some a => exact ⟨a, rfl⟩
  refine ⟨l, u, cr + 1, rd + 1, ?_, ?_, ?_, ?_, ?_, ?_⟩
  · rw [getbbox, hl, hcr, hu, hrd]
  · intro a ha b hb hab
    have hac : a ∈ nonzeroCols img := mem_nonzeroCols.mpr ⟨ha, b, hb, hab⟩
    have hbr : b ∈ nonzeroRows img := mem_nonzeroRows.mpr ⟨hb, a, ha, hab⟩
    refine ⟨(min?_spec.mp hl).2 a hac, ?_, (min?_spec.mp hu).2 b hbr, ?_⟩
    · exact Nat.lt_succ_of_le ((max?_spec.mp hcr).2 a hac)
    · exact Nat.lt_succ_of_le ((max?_spec.mp hrd).2 b hbr)
  · exact mem_nonzeroCols.mp (min?_spec.mp hl).1
  · rcases mem_nonzeroCols.mp (max?_spec.mp hcr).1 with ⟨hw, hy2⟩
    exact ⟨Nat.succ_pos _, by simpa using hw, by simpa using hy2⟩
  · exact mem_nonzeroRows.mp (min?_spec.mp hu).1
  · rcases mem_nonzeroRows.mp (max?_spec.mp hrd).1 with ⟨hh, hx2⟩
    exact ⟨Nat.succ_pos _, by simpa using hh, by simpa using hx2⟩

/-- C1: for every input image of width W and height H, the result of
`enforce_10_to_1_aspect` has width exactly `floor(9.8 * H)` and height
exactly H, in all three branches of the width comparison. -/
theorem C1_enforce_aspect_dimensions (img : ImgSize) :
    ((enforce_10_to_1_aspect img).width : ℤ) = ⌊(9.8 : ℚ) * img.height⌋ ∧
    (enforce_10_to_1_aspect img).height = img.height := by
  have hres : enforce_10_to_1_aspect img =
      { width := target_width img.height, height := img.height } := by
    unfold enforce_10_to_1_aspect
    dsimp only
    split
    · next h => rw [h]
    · split <;> rfl
  rw [hres]
  dsimp only
  refine ⟨?_, rfl⟩
  have h98 : (9.8 : ℚ) * img.height = ((98 * img.height : ℕ) : ℚ) / ((10 : ℕ) : ℚ) := by
    push_cast
    ring_nf
  rw [h98, Rat.floor_natCast_div_natCast]
  rw [target_width]
  omega

/-- C7: a fully transparent image passes through `crop_transparent_png`
unchanged and without error; an image with at least one pixel of non-zero
alpha is cropped to the minimal bounding rectangle of those pixels. -/
theorem C7_crop_transparent (img : AImage) :
    ((∀ x < img.width, ∀ y < img.height, img.alpha x y = 0) →
        crop_transparent_png img = img) ∧
    ((∃ x < img.width, ∃ y < img.height, img.alpha x y ≠ 0) →
        ∃ l u r d, isMinimalBBox img l u r d ∧
          crop_transparent_png img = cropImg img l u r d) := by
  constructor
  · intro h
    rw [crop_transparent_png, getbbox_eq_none h]
  · rintro ⟨x, hx, y, hy, hnz⟩
    obtain ⟨l, u, r, d, hbox, hmin⟩ := getbbox_eq_some hx hy hnz
    exact ⟨l, u, r, d, hmin, by rw [crop_transparent_png, hbox]⟩

/-- Witness for C7 at two concrete images: a fully transparent 2 by 2 image
is returned unchanged, and the image with one opaque pixel is cropped to a
minimal bounding rectangle. -/
theorem C7_crop_transparent_witness :
    crop_transparent_png imgZero = imgZero ∧
    ∃ l u r d, isMinimalBBox imgDot l u r d ∧
      crop_transparent_png imgDot = cropImg imgDot l u r d :=
  ⟨(C7_crop_transparent imgZero).1 (by decide),
   (C7_crop_transparent imgDot).2 ⟨1, by decide, 0, by decide, by decide⟩⟩

/-- C2: for the stacking row with counts (2, 1, 0, 0, 1, 0, 0) and no OOB
interface, `create_interfaces` returns exactly the names
GigabitEthernet1/0/1, GigabitEthernet1/0/2, GigabitEthernet1/0/3,
TenGigabitEthernet1/0/1, Vlan1; for the non-stacking row with the same
counts, exactly GigabitEthernet1, GigabitEthernet2, GigabitEthernet3,
TenGigabitEthernet1, Vlan1 - five interfaces in both cases, with the 1G
and 10G counters numbered independently. -/
theorem C2_name_sequences :
    (create_interfaces rowC2stack).map (fun l => l.map Iface.name) =
      Except.ok ["GigabitEthernet1/0/1", "GigabitEthernet1/0/2", "GigabitEthernet1/0/3",
        "TenGigabitEthernet1/0/1", "Vlan1"] ∧
    (create_interfaces rowC2flat).map (fun l => l.map Iface.name) =
      Except.ok ["GigabitEthernet1", "GigabitEthernet2", "GigabitEthernet3",
        "TenGigabitEthernet1", "Vlan1"] :=
  ⟨rfl, rfl⟩

/-- C10: the FP- disjunct of the PoE detection on lines 53-54 is redundant:
for every model string the whole test equals the P- test alone, because
every occurrence of FP- contains an occurrence of P-. -/
theorem C10_fp_disjunct_redundant (m : String) :
    is_poe_model m = strContains (strUpper m) "P-" := by
  unfold is_poe_model
  cases hp : strContains (strUpper m) "P-" with
  | false =>
    cases hf : strContains (strUpper m) "FP-" with
    | false => simp
    | true =>
      exfalso
      have h1 : ("FP-".data) <:+: (strUpper m).data := by
        rw [strContains] at hf
        exact of_decide_eq_true hf
      have h2 : ("P-".data) <:+: (strUpper m).data :=
        (show ("P-".data) <:+: ("FP-".data) by decide).trans h1
      rw [strContains, decide_eq_false_iff_not] at hp
      exact hp h2
  | true => simp

theorem except_bind_ok {ε α β : Type} {x : Except ε α} {f : α → Except ε β} {b : β}
    (h : x >>= f = Except.ok b) : ∃ a, x = Except.ok a ∧ f a = Except.ok b := by
  cases hx : x with
  | error e =>
    rw [hx] at h
    simp [Bind.bind, Except.bind] at h
  | ok a =>
    rw [hx] at h
    refine ⟨a, rfl, ?_⟩
    simpa [Bind.bind, Except.bind] using h

theorem create_interfaces_ok_elim {row : Row} {l : List Iface}
    (h : create_interfaces row = Except.ok l) :
    ∃ n1 n2 n3 n4 n5 n6 n7 oobS,
      getCount row.giCopper = Except.ok n1 ∧ getCount row.giSFP = Except.ok n2 ∧
      getCount row.giCombo = Except.ok n3 ∧ getCount row.twoGi = Except.ok n4 ∧
      getCount row.tenGiCopper = Except.ok n5 ∧ getCount row.tenGiSFP = Except.ok n6 ∧
      getCount row.tenGiCombo = Except.ok n7 ∧ row.OOB = some oobS ∧
      l = builtIfaces row n1 n2 n3 n4 n5 n6 n7 oobS := by
  unfold create_interfaces at h
  obtain ⟨n1, h1, h⟩ := except_bind_ok h
  obtain ⟨n2, h2, h⟩ := except_bind_ok h
  obtain ⟨n3, h3, h⟩ := except_bind_ok h
  obtain ⟨n4, h4, h⟩ := except_bind_ok h
  obtain ⟨n5, h5, h⟩ := except_bind_ok h
  obtain ⟨n6, h6, h⟩ := except_bind_ok h
  obtain ⟨n7, h7, h⟩ := except_bind_ok h
  cases hO : row.OOB with
  | none =>
    rw [hO] at h
    exact absurd h (by simp [Bind.bind, Except.bind])
  | some s =>
    rw [hO] at h
    simp only [Bind.bind, Except.bind, pure, Except.pure, Except.ok.injEq] at h
    exact ⟨n1, n2, n3, n4, n5, n6, n7, s, h1, h2, h3, h4, h5, h6, h7, rfl, h.symm⟩

/-- Unfolds membership in one of the port loops: every element is the
record built from some index below the count. -/
theorem mem_portRun {base ty : String} {descr : Option String} {poe : Bool}
    {start count : Nat} {i : Iface} (hi : i ∈ portRun base ty descr poe start count) :
    ∃ k, k < count ∧ i =
      { name := base ++ toString (start + k)
        type := ty
        enabled := true
        description := descr
        poe_mode := if poe then some "pse" else none
        poe_type := if poe then some "type2-ieee802.3at" else none } := by
  rcases List.mem_map.mp hi with ⟨k, hk, hik⟩
  exact ⟨k, List.mem_range.mp hk, hik.symm⟩

/-- C9: every successful `create_interfaces` result is nonempty and its
last element is the Vlan1 virtual interface, enabled and not
management-only, regardless of the port counts, the OOB field and the
Stacking flag. -/
theorem C9_trailing_vlan1 {row : Row} {l : List Iface}
    (h : create_interfaces row = Except.ok l) :
    l ≠ [] ∧ l.getLast? = some vlanIface := by
  obtain ⟨n1, n2, n3, n4, n5, n6, n7, oobS, -, -, -, -, -, -, -, -, hl⟩ :=
    create_interfaces_ok_elim h
  subst hl
  unfold builtIfaces
  constructor
  · simp
  · simp [List.getLast?_append]

/-- Witness for C9 on the all-zero row, whose list is `[vlanIface]`. -/
theorem C9_trailing_vlan1_witness :
    ([vlanIface] : List Iface) ≠ [] ∧
    ([vlanIface] : List Iface).getLast? = some vlanIface :=
  @C9_trailing_vlan1 rowTiny [vlanIface] rfl

theorem badCount_not_ok {o : Option String} {n : Int}
    (hb : badCount o) (h : getCount o = Except.ok n) : False := by
  rcases hb with h0 | ⟨s, hs, hp⟩
  · rw [h0] at h
    exact absurd h (by simp [getCount])
  · rw [hs] at h
    simp [getCount, hp] at h

/-- C8: a row whose count field is absent or holds non-numeric content
makes `create_interfaces` fail with an uncaught error, so no interface
list is produced for that row. -/
theorem C8_bad_count_aborts {row : Row}
    (h : badCount row.giCopper ∨ badCount row.giSFP ∨ badCount row.giCombo ∨
      badCount row.twoGi ∨ badCount row.tenGiCopper ∨ badCount row.tenGiSFP ∨
      badCount row.tenGiCombo) :
    ∃ msg, create_interfaces row = Except.error msg := by
  cases hc : create_interfaces row with
  | error e => exact ⟨e, rfl⟩
  | ok l =>
    exfalso
    obtain ⟨n1, n2, n3, n4, n5, n6, n7, oobS, h1, h2, h3, h4, h5, h6, h7, -, -⟩ :=
      create_interfaces_ok_elim hc
    rcases h with hb | hb | hb | hb | hb | hb | hb
    · exact badCount_not_ok hb h1
    · exact badCount_not_ok hb h2
    · exact badCount_not_ok hb h3
    · exact badCount_not_ok hb h4
    · exact badCount_not_ok hb h5
    · exact badCount_not_ok hb h6
    · exact badCount_not_ok hb h7

/-- Witness for C8: the row with the non-numeric count aborts with an
error. -/
theorem C8_bad_count_aborts_witness :
    ∃ msg, create_interfaces rowBadCount = Except.error msg :=
  C8_bad_count_aborts (Or.inr (Or.inl (Or.inr ⟨"24 ports", rfl, rfl⟩)))

theorem pyDigit_toNat {c : Char} (h : pyDigit c = true) : 48 ≤ c.toNat ∧ c.toNat ≤ 57 := by
  simpa [pyDigit] using h

theorem pySpace_of_digit {c : Char} (h : pyDigit c = true) : pySpace c = false := by
  have hn := pyDigit_toNat h
  simp only [pySpace, Bool.or_eq_false_iff, Bool.and_eq_false_iff, decide_eq_false_iff_not]
  omega

theorem digit_ne_underscore {c : Char} (h : pyDigit c = true) : ¬(c = '_') := by
  intro he
  rw [he] at h
  exact absurd h (by decide)

theorem dropWhile_space_of_digits {l : List Char} (h : l.all pyDigit = true) :
    l.dropWhile pySpace = l := by
  cases l with
  | nil => rfl
  | cons c cs =>
    simp only [List.all_cons, Bool.and_eq_true] at h
    rw [List.dropWhile_cons, pySpace_of_digit h.1]
    simp

theorem pyStrip_of_digits {l : List Char} (h : l.all pyDigit = true) : pyStrip l = l := by
  rw [pyStrip, dropWhile_space_of_digits h,
    dropWhile_space_of_digits (by rwa [List.all_reverse]), List.reverse_reverse]

theorem digitsTailF_of_digits {l : List Char} (h : l.all pyDigit = true) :
    digitsTailF false l = true := by
  induction l with
  | nil => rfl
  | cons c cs ih =>
    simp only [List.all_cons, Bool.and_eq_true] at h
    rw [digitsTailF, if_neg (digit_ne_underscore h.1), h.1, ih h.2]
    rfl

theorem digitsTail_of_digits {l : List Char} (h : l.all pyDigit = true) :
    digitsTail l = true := digitsTailF_of_digits h

theorem digitsOk_of_digits {c : Char} {cs : List Char}
    (h : (c :: cs).all pyDigit = true) : digitsOk (c :: cs) = true := by
  simp only [List.all_cons, Bool.and_eq_true] at h
  rw [digitsOk, h.1, digitsTail_of_digits h.2]
  rfl

theorem filter_underscore_of_digits {l : List Char} (h : l.all pyDigit = true) :
    (l.filter fun c => c != '_') = l := by
  rw [List.filter_eq_self]
  intro a ha
  have hd := List.all_eq_true.mp h a ha
  simpa [bne_iff_ne] using digit_ne_underscore hd

/-- On a nonempty all-digit string, `int()` succeeds and returns the
decimal value of the digits. -/
theorem pyInt_of_digits {s : String} (hne : s.data ≠ []) (h : s.data.all pyDigit = true) :
    pyInt s = some (Int.ofNat (digitsVal s.data)) := by
  rw [pyInt]
  simp only [pyStrip_of_digits h]
  rcases hd : s.data with _ | ⟨c, cs⟩
  · exact absurd hd hne
  · rw [hd] at h
    have hall := h
    simp only [List.all_cons, Bool.and_eq_true] at h
    have hplus : ¬((c :: cs).head? = some '+') := by
      intro he
      simp only [List.head?_cons, Option.some.injEq] at he
      rw [he] at h
      exact absurd h.1 (by decide)
    have hminus : ¬((c :: cs).head? = some '-') := by
      intro he
      simp only [List.head?_cons, Option.some.injEq] at he
      rw [he] at h
      exact absurd h.1 (by decide)
    rw [if_neg hplus, if_neg hminus, if_pos (digitsOk_of_digits hall),
      filter_underscore_of_digits hall]

theorem oob_positive_spec {s : String} :
    oob_positive s = ((!(s == "")) && s.data.all pyDigit && decide (0 < digitsVal s.data)) := by
  rw [oob_positive]
  cases hE : (s == "") with
  | true => rfl
  | false =>
    cases hD : s.data.all pyDigit with
    | false => simp
    | true =>
      have hne : s.data ≠ [] := by
        intro h0
        have hs : s = "" := String.ext h0
        rw [hs] at hE
        simp at hE
      rw [pyInt_of_digits hne hD]
      simp [Int.ofNat_pos]

theorem append_ne_OOB {base x : String} {c : Char} (hbase : base.data.head? = some c)
    (hc : c ≠ 'O') : ¬(base ++ x = "OOB") := by
  intro h
  have hdata : base.data ++ x.data = ['O', 'O', 'B'] := by
    rw [← String.data_append, h]
  cases hb : base.data with
  | nil =>
    rw [hb] at hbase
    exact Option.noConfusion hbase
  | cons a t =>
    rw [hb] at hbase hdata
    have ha : a = c := by simpa using hbase
    rw [List.cons_append] at hdata
    simp only [List.cons.injEq] at hdata
    exact hc (by rw [← ha]; exact hdata.1)

theorem portRun_countP_OOB {base ty : String} {descr : Option String} {poe : Bool}
    {start count : Nat} {c : Char} (hbase : base.data.head? = some c) (hc : c ≠ 'O') :
    (portRun base ty descr poe start count).countP (fun i => i.name == "OOB") = 0 := by
  rw [List.countP_eq_zero]
  intro i hi
  obtain ⟨k, -, hik⟩ := mem_portRun hi
  subst hik
  simp only [beq_iff_eq]
  exact append_ne_OOB hbase hc

theorem base1_head (row : Row) : (base_name_1g row).data.head? = some 'G' := by
  rw [base_name_1g]
  split <;> rfl

theorem base10_head (row : Row) : (base_name_10g row).data.head? = some 'T' := by
  rw [base_name_10g]
  split <;> rfl

/-- C4: a successful `create_interfaces` row contains an interface named
OOB exactly when the OOB field is a non-empty digit string of positive
value (once when it is, never when it is not), and that interface is the
management-only `1000base-t` record. -/
theorem C4_oob_interface {row : Row} {l : List Iface}
    (h : create_interfaces row = Except.ok l) :
    l.countP (fun i => i.name == "OOB") = (if oobSpecCond row = true then 1 else 0) ∧
    (oobSpecCond row = true → oobIface ∈ l) := by
  obtain ⟨n1, n2, n3, n4, n5, n6, n7, oobS, -, -, -, -, -, -, -, hO, hl⟩ :=
    create_interfaces_ok_elim h
  subst hl
  have hcond : oobSpecCond row = oob_positive oobS := by
    rw [oob_positive_spec]
    simp only [oobSpecCond, hO]
  constructor
  · rw [hcond]
    unfold builtIfaces
    simp only [List.countP_append,
      portRun_countP_OOB (base1_head row) (by decide),
      portRun_countP_OOB (base10_head row) (by decide)]
    cases hoobp : oob_positive oobS <;>
      simp [hoobp, oobIface, vlanIface, List.countP_cons]
  · intro hc
    rw [hcond] at hc
    simp [builtIfaces, hc]

/-- Witness for C4: OOB value "0" (row `rowTiny`) produces no interface
named OOB, OOB value "2" produces exactly one. -/
theorem C4_oob_interface_witness :
    ([vlanIface] : List Iface).countP (fun i => i.name == "OOB") = 0 ∧
    ([oobIface, vlanIface] : List Iface).countP (fun i => i.name == "OOB") = 1 :=
  ⟨(@C4_oob_interface rowTiny [vlanIface] rfl).1.trans (by decide),
   (@C4_oob_interface rowOob2 [oobIface, vlanIface] rfl).1.trans (by decide)⟩

/-- C5: a successful row decomposes as the category-1 Gigabit-copper block
followed by everything else, where the copper block has exactly as many
interfaces as the parsed `GigabitEthernet Copper` count; every interface
of that block carries the PoE attributes `poe_mode = pse` and
`poe_type = type2-ieee802.3at` exactly when the uppercased model name
contains P- or FP-, and every interface after the block carries no PoE
attributes. -/
theorem C5_poe_only_copper {row : Row} {l : List Iface}
    (h : create_interfaces row = Except.ok l) :
    ∃ c rest,
      getCount row.giCopper = Except.ok c ∧
      l = portRun (base_name_1g row) "1000base-t" none (is_poe_model row.Model) 1 c.toNat ++
        rest ∧
      (portRun (base_name_1g row) "1000base-t" none (is_poe_model row.Model) 1
        c.toNat).length = c.toNat ∧
      (∀ i ∈ portRun (base_name_1g row) "1000base-t" none (is_poe_model row.Model) 1 c.toNat,
        ((i.poe_mode = some "pse" ∧ i.poe_type = some "type2-ieee802.3at") ↔
          is_poe_model row.Model = true)) ∧
      (∀ i ∈ rest, i.poe_mode = none ∧ i.poe_type = none) := by
  obtain ⟨n1, n2, n3, n4, n5, n6, n7, oobS, h1, -, -, -, -, -, -, -, hl⟩ :=
    create_interfaces_ok_elim h
  subst hl
  refine ⟨n1,
    portRun (base_name_1g row) "1000base-x-sfp" none false (1 + n1.toNat) n2.toNat ++
    portRun (base_name_1g row) "1000base-x-sfp" (some "SFP/RJ45 Combo") false
      (1 + n1.toNat + n2.toNat) n3.toNat ++
    portRun (base_name_1g row) "2.5gbase-t" none false
      (1 + n1.toNat + n2.toNat + n3.toNat) n4.toNat ++
    portRun (base_name_10g row) "10gbase-t" none false 1 n5.toNat ++
    portRun (base_name_10g row) "10gbase-x-sfpp" none false (1 + n5.toNat) n6.toNat ++
    portRun (base_name_10g row) "10gbase-x-sfpp" (some "SFP+/RJ45 Combo") false
      (1 + n5.toNat + n6.toNat) n7.toNat ++
    (if oob_positive oobS then [oobIface] else []) ++
    [vlanIface], h1, ?_, ?_, ?_, ?_⟩
  · rw [builtIfaces]
    simp only [List.append_assoc]
  · simp [portRun]
  · intro i hi
    obtain ⟨k, -, hik⟩ := mem_portRun hi
    subst hik
    cases hpoe : is_poe_model row.Model <;> simp
  · intro i hi
    simp only [List.mem_append] at hi
    rcases hi with ((((((hi | hi) | hi) | hi) | hi) | hi) | hi) | hi
    · obtain ⟨k, -, hik⟩ := mem_portRun hi
      subst hik
      simp
    · obtain ⟨k, -, hik⟩ := mem_portRun hi
      subst hik
      simp
    · obtain ⟨k, -, hik⟩ := mem_portRun hi
      subst hik
      simp
    · obtain ⟨k, -, hik⟩ := mem_portRun hi
      subst hik
      simp
    · obtain ⟨k, -, hik⟩ := mem_portRun hi
      subst hik
      simp
    · obtain ⟨k, -, hik⟩ := mem_portRun hi
      subst hik
      simp
    · cases h2 : oob_positive oobS
      · rw [h2] at hi
        simp at hi
      · rw [h2] at hi
        simp at hi
        subst hi
        simp [oobIface]
    · simp at hi
      subst hi
      simp [vlanIface]

/-- Witness for C5 on the concrete PoE row with one copper port, whose
list is the single PoE-flagged copper interface followed by Vlan1. -/
theorem C5_poe_only_copper_witness :
    ∃ c rest,
      getCount rowPoe.giCopper = Except.ok c ∧
      ([poeCopperIface, vlanIface] : List Iface) =
        portRun (base_name_1g rowPoe) "1000base-t" none (is_poe_model rowPoe.Model) 1 c.toNat ++
          rest ∧
      (portRun (base_name_1g rowPoe) "1000base-t" none (is_poe_model rowPoe.Model) 1
        c.toNat).length = c.toNat ∧
      (∀ i ∈ portRun (base_name_1g rowPoe) "1000base-t" none (is_poe_model rowPoe.Model) 1
          c.toNat,
        ((i.poe_mode = some "pse" ∧ i.poe_type = some "type2-ieee802.3at") ↔
          is_poe_model rowPoe.Model = true)) ∧
      (∀ i ∈ rest, i.poe_mode = none ∧ i.poe_type = none) :=
  @C5_poe_only_copper rowPoe [poeCopperIface, vlanIface] rfl

theorem subNonAlnum_chars (b : Bool) (l : List Char) :
    (subNonAlnum b l).all slugChar = true := by
  induction l generalizing b with
  | nil => rfl
  | cons c cs ih =>
    rw [subNonAlnum]
    by_cases hc : isLowerAlnum c = true
    · simp [hc, List.all_cons, slugChar, ih]
    · cases b <;> simp [hc, List.all_cons, slugChar, ih]

theorem subNonAlnum_true_head {l : List Char} {a : Char}
    (h : (subNonAlnum true l).head? = some a) : isLowerAlnum a = true := by
  induction l with
  | nil => simp [subNonAlnum] at h
  | cons c cs ih =>
    rw [subNonAlnum] at h
    by_cases hc : isLowerAlnum c = true
    · rw [if_pos hc] at h
      simp only [List.head?_cons, Option.some.injEq] at h
      rwa [← h]
    · rw [if_neg hc, if_pos rfl] at h
      exact ih h

theorem dash_not_alnum : isLowerAlnum '-' = false := by decide

theorem subNonAlnum_noDD (b : Bool) (l : List Char) : noDD (subNonAlnum b l) := by
  induction l generalizing b with
  | nil => simp [subNonAlnum]
  | cons c cs ih =>
    rw [subNonAlnum]
    by_cases hc : isLowerAlnum c = true
    · rw [if_pos hc]
      refine List.chain'_cons'.mpr ⟨?_, ih false⟩
      rintro y - ⟨h1, -⟩
      rw [h1] at hc
      exact absurd hc (by decide)
    · rw [if_neg hc]
      cases b with
      | true =>
        rw [if_pos rfl]
        exact ih true
      | false =>
        rw [if_neg (by simp)]
        refine List.chain'_cons'.mpr ⟨?_, ih true⟩
        rintro y hy ⟨-, h2⟩
        have halnum := subNonAlnum_true_head hy
        rw [h2] at halnum
        exact absurd halnum (by decide)

theorem subNonAlnum_id {l : List Char} (hchars : l.all slugChar = true) (hdd : noDD l) :
    subNonAlnum false l = l ∧ (l.head? ≠ some '-' → subNonAlnum true l = l) := by
  induction l with
  | nil => exact ⟨rfl, fun _ => rfl⟩
  | cons c cs ih =>
    simp only [List.all_cons, Bool.and_eq_true] at hchars
    have hdd' := List.chain'_cons'.mp hdd
    obtain ⟨ihf, iht⟩ := ih hchars.2 hdd'.2
    constructor
    · rw [subNonAlnum]
      rcases (by simpa [slugChar, Bool.or_eq_true] using hchars.1 :
          isLowerAlnum c = true ∨ (c == '-') = true) with hc | hc
      · rw [if_pos hc, ihf]
      · have hcd : c = '-' := by simpa using hc
        subst hcd
        rw [if_neg (by decide), if_neg (by simp)]
        have hcs_head2 : cs.head? ≠ some '-' := by
          intro hh
          exact hdd'.1 '-' hh ⟨rfl, rfl⟩
        rw [iht hcs_head2]
    · intro hhead
      rw [subNonAlnum]
      have hc : isLowerAlnum c = true := by
        rcases (by simpa [slugChar, Bool.or_eq_true] using hchars.1 :
            isLowerAlnum c = true ∨ (c == '-') = true) with hc | hc
        · exact hc
        · have hcd : c = '-' := by simpa using hc
          rw [hcd] at hhead
          exact absurd rfl hhead
      rw [if_pos hc, ihf]

theorem collapseDashes_all {p : Char → Bool} {l : List Char} (b : Bool)
    (h : l.all p = true) : (collapseDashes b l).all p = true := by
  induction l generalizing b with
  | nil => rfl
  | cons c cs ih =>
    simp only [List.all_cons, Bool.and_eq_true] at h
    rw [collapseDashes]
    by_cases hc : (c == '-') = true
    · rw [if_pos hc]
      cases b with
      | true =>
        rw [if_pos rfl]
        exact ih true h.2
      | false =>
        rw [if_neg (by simp)]
        have hcd : c = '-' := by simpa using hc
        subst hcd
        simp [List.all_cons, h.1, ih true h.2]
    · rw [if_neg hc]
      simp [List.all_cons, h.1, ih false h.2]

theorem collapseDashes_true_head {l : List Char} {a : Char}
    (h : (collapseDashes true l).head? = some a) : a ≠ '-' := by
  induction l with
  | nil => simp [collapseDashes] at h
  | cons c cs ih =>
    rw [collapseDashes] at h
    by_cases hc : (c == '-') = true
    · rw [if_pos hc, if_pos rfl] at h
      exact ih h
    · rw [if_neg hc] at h
      simp only [List.head?_cons, Option.some.injEq] at h
      subst h
      simpa using hc

theorem collapseDashes_noDD (b : Bool) (l : List Char) : noDD (collapseDashes b l) := by
  induction l generalizing b with
  | nil => simp [collapseDashes]
  | cons c cs ih =>
    rw [collapseDashes]
    by_cases hc : (c == '-') = true
    · rw [if_pos hc]
      cases b with
      | true =>
        rw [if_pos rfl]
        exact ih true
      | false =>
        rw [if_neg (by simp)]
        refine List.chain'_cons'.mpr ⟨?_, ih true⟩
        rintro y hy ⟨-, h2⟩
        exact collapseDashes_true_head hy h2
    · rw [if_neg hc]
      refine List.chain'_cons'.mpr ⟨?_, ih false⟩
      rintro y - ⟨h1, -⟩
      exact absurd h1 (by simpa using hc)

theorem collapseDashes_id {l : List Char} (hdd : noDD l) :
    collapseDashes false l = l ∧ (l.head? ≠ some '-' → collapseDashes true l = l) := by
  induction l with
  | nil => exact ⟨rfl, fun _ => rfl⟩
  | cons c cs ih =>
    have hdd' := List.chain'_cons'.mp hdd
    obtain ⟨ihf, iht⟩ := ih hdd'.2
    constructor
    · rw [collapseDashes]
      by_cases hc : (c == '-') = true
      · have hcd : c = '-' := by simpa using hc
        subst hcd
        rw [if_pos (by decide), if_neg (by simp)]
        have hcs : cs.head? ≠ some '-' := fun hh => hdd'.1 '-' hh ⟨rfl, rfl⟩
        rw [iht hcs]
      · rw [if_neg hc, ihf]
    · intro hhead
      rw [collapseDashes]
      have hc : ¬((c == '-') = true) := by
        intro hc
        have hcd : c = '-' := by simpa using hc
        rw [hcd] at hhead
        exact hhead rfl
      rw [if_neg hc, ihf]

theorem head?_dropWhile_not {p : Char → Bool} {l : List Char} {a : Char}
    (h : (l.dropWhile p).head? = some a) : p a = false := by
  induction l with
  | nil => simp at h
  | cons c cs ih =>
    rw [List.dropWhile_cons] at h
    by_cases hp : p c = true
    · rw [if_pos hp] at h
      exact ih h
    · rw [if_neg hp] at h
      simp only [List.head?_cons, Option.some.injEq] at h
      subst h
      cases hpc : p c with
      | false => rfl
      | true => exact absurd hpc hp

theorem getLast?_dropWhile_ne_nil {p : Char → Bool} {l : List Char}
    (h : l.dropWhile p ≠ []) : (l.dropWhile p).getLast? = l.getLast? := by
  induction l with
  | nil => simp at h
  | cons c cs ih =>
    rw [List.dropWhile_cons] at h ⊢
    by_cases hp : p c = true
    · rw [if_pos hp] at h ⊢
      rw [ih h]
      cases cs with
      | nil => simp at h
      | cons d ds => rw [List.getLast?_cons_cons]
    · rw [if_neg hp]

theorem dropWhile_eq_self_of_head {p : Char → Bool} {l : List Char}
    (h : ∀ a, l.head? = some a → p a = false) : l.dropWhile p = l := by
  cases l with
  | nil => rfl
  | cons c cs =>
    rw [List.dropWhile_cons, h c rfl]
    simp

theorem all_dropWhile {p q : Char → Bool} {l : List Char} (h : l.all p = true) :
    (l.dropWhile q).all p = true := by
  rw [List.all_eq_true] at h ⊢
  intro a ha
  exact h a ((List.dropWhile_suffix q).sublist.subset ha)

theorem dropEndDashes_all {p : Char → Bool} {l : List Char} (h : l.all p = true) :
    (dropEndDashes l).all p = true := by
  rw [dropEndDashes, List.all_reverse]
  exact all_dropWhile (by rw [List.all_reverse]; exact all_dropWhile h)

theorem dropEndDashes_head {l : List Char} {a : Char}
    (h : (dropEndDashes l).head? = some a) : a ≠ '-' := by
  rw [dropEndDashes, List.head?_reverse] at h
  have hne : (l.dropWhile (· == '-')).reverse.dropWhile (· == '-') ≠ [] := by
    intro h0
    rw [h0] at h
    simp at h
  rw [getLast?_dropWhile_ne_nil hne, List.getLast?_reverse] at h
  simpa using head?_dropWhile_not h

theorem dropEndDashes_last {l : List Char} {a : Char}
    (h : (dropEndDashes l).getLast? = some a) : a ≠ '-' := by
  rw [dropEndDashes, List.getLast?_reverse] at h
  simpa using head?_dropWhile_not h

theorem dropEndDashes_id {l : List Char}
    (h1 : ∀ a, l.head? = some a → a ≠ '-') (h2 : ∀ a, l.getLast? = some a → a ≠ '-') :
    dropEndDashes l = l := by
  rw [dropEndDashes]
  rw [dropWhile_eq_self_of_head (fun a ha => by
    rw [List.head?_reverse] at ha
    have hne : l.dropWhile (· == '-') ≠ [] := by
      intro h0
      rw [h0] at ha
      simp at ha
    rw [getLast?_dropWhile_ne_nil hne] at ha
    simpa using h2 a ha)]
  rw [dropWhile_eq_self_of_head (fun a ha => by simpa using h1 a ha)]
  exact List.reverse_reverse l

theorem noDD_reverse {l : List Char} (h : noDD l) : noDD l.reverse := by
  refine List.chain'_reverse.mpr ?_
  exact List.Chain'.imp (fun a b hab ⟨x1, x2⟩ => hab ⟨x2, x1⟩) h

theorem noDD_dropEndDashes {l : List Char} (h : noDD l) : noDD (dropEndDashes l) := by
  rw [dropEndDashes]
  exact noDD_reverse (List.Chain'.suffix
    (noDD_reverse (List.Chain'.suffix h (List.dropWhile_suffix _)))
    (List.dropWhile_suffix _))

theorem pyToLower_slugChar {c : Char} (h : slugChar c = true) : pyToLower c = c := by
  have h2 : ((97 ≤ c.toNat ∧ c.toNat ≤ 122) ∨ (48 ≤ c.toNat ∧ c.toNat ≤ 57)) ∨ c = '-' := by
    simpa [slugChar, isLowerAlnum, Bool.or_eq_true, beq_iff_eq] using h
  rcases h2 with h2 | h2
  · rw [pyToLower, if_neg]
    omega
  · subst h2
    decide

theorem map_pyToLower_id {l : List Char} (h : l.all slugChar = true) :
    l.map pyToLower = l := by
  induction l with
  | nil => rfl
  | cons c cs ih =>
    simp only [List.all_cons, Bool.and_eq_true] at h
    rw [List.map_cons, pyToLower_slugChar h.1, ih h.2]

theorem slugify_data (s : String) :
    (slugify s).data =
      dropEndDashes (collapseDashes false (subNonAlnum false (s.data.map pyToLower))) := rfl

/-- The output of slugify is canonical: slug characters only, no adjacent
dashes, and no dash at either end. -/
theorem slugify_canonical (s : String) :
    (slugify s).data.all slugChar = true ∧ noDD (slugify s).data ∧
    (∀ a, (slugify s).data.head? = some a → a ≠ '-') ∧
    (∀ a, (slugify s).data.getLast? = some a → a ≠ '-') := by
  rw [slugify_data]
  exact ⟨dropEndDashes_all (collapseDashes_all false (subNonAlnum_chars false _)),
    noDD_dropEndDashes (collapseDashes_noDD false _),
    fun a ha => dropEndDashes_head ha,
    fun a ha => dropEndDashes_last ha⟩

theorem slugify_idem (s : String) : slugify (slugify s) = slugify s := by
  obtain ⟨hchars, hdd, hh, hl⟩ := slugify_canonical s
  calc slugify (slugify s)
      = String.mk (dropEndDashes (collapseDashes false (subNonAlnum false
          ((slugify s).data.map pyToLower)))) := rfl
    _ = String.mk ((slugify s).data) := by
        rw [map_pyToLower_id hchars, (subNonAlnum_id hchars hdd).1,
          (collapseDashes_id hdd).1, dropEndDashes_id hh hl]
    _ = slugify s := rfl

/-- C3: slugify is idempotent; its output contains only characters from
the class `[a-z0-9-]` and neither starts nor ends with a dash. -/
theorem C3_slugify_idempotent (s : String) :
    slugify (slugify s) = slugify s ∧
    (slugify s).data.all slugChar = true ∧
    (slugify s).data.head? ≠ some '-' ∧
    (slugify s).data.getLast? ≠ some '-' := by
  obtain ⟨hchars, -, hh, hl⟩ := slugify_canonical s
  exact ⟨slugify_idem s, hchars, fun h => hh '-' h rfl, fun h => hl '-' h rfl⟩

/-- Witness for C3 at a concrete messy string. -/
theorem C3_slugify_idempotent_witness :
    slugify (slugify "  Cisco C1300 Series!! ") = slugify "  Cisco C1300 Series!! " ∧
    (slugify "  Cisco C1300 Series!! ").data.all slugChar = true ∧
    (slugify "  Cisco C1300 Series!! ").data.head? ≠ some '-' ∧
    (slugify "  Cisco C1300 Series!! ").data.getLast? ≠ some '-' :=
  C3_slugify_idempotent "  Cisco C1300 Series!! "

/-- A list without an occurrence of C1300 passes through the replacement
unchanged. -/
theorem replaceC1300_no_occurrence {l : List Char}
    (h : ¬("C1300".data <:+: l)) : replaceC1300 l = l := by
  induction l with
  | nil => rfl
  | cons c cs ih =>
    rw [replaceC1300.eq_def]
    split
    · rename_i cs2 heq
      exfalso
      apply h
      rw [heq]
      exact ⟨[], cs2, rfl⟩
    · rename_i cc cs2 hno heq
      injection heq with h1 h2
      subst h1
      subst h2
      have hcs : ¬("C1300".data <:+: cs) := fun hinf =>
        h (hinf.trans ⟨[c], [], by simp⟩)
      rw [ih hcs]
    · rename_i heq
      exact absurd heq (by simp)

/-- C6 as stated fails on the code: on the model string C1300C1300 the
code replaces both occurrences (yielding Catalyst 1300Catalyst 1300), not
the single first occurrence the claim describes. -/
theorem C6_single_substitution_cex :
    (buildDeviceMeta "C1300C1300").model ≠
      String.mk (replaceFirstC1300 ("C1300C1300").data) := by decide

/-- C6 amended: the slug is `cisco-` plus the slug of the original
pre-replacement model string, while the display model replaces every
non-overlapping occurrence of C1300 left to right (in particular a string
without an occurrence is unchanged, and a leading occurrence is rewritten
with the scan continuing after it). -/
theorem C6_slug_and_model (m : String) :
    (buildDeviceMeta m).slug = "cisco-" ++ slugify m ∧
    (buildDeviceMeta m).model = String.mk (replaceC1300 m.data) ∧
    replaceC1300 ("C1300".data ++ m.data) = "Catalyst 1300".data ++ replaceC1300 m.data ∧
    (¬("C1300".data <:+: m.data) → replaceC1300 m.data = m.data) :=
  ⟨rfl, rfl, rfl, replaceC1300_no_occurrence⟩

/-- Witness for C6 at concrete model strings, with the no-occurrence
hypothesis discharged on the string 24T. -/
theorem C6_slug_and_model_witness :
    (buildDeviceMeta "C1300-24T-4X").slug = "cisco-" ++ slugify "C1300-24T-4X" ∧
    (buildDeviceMeta "C1300-24T-4X").model =
      String.mk (replaceC1300 ("C1300-24T-4X").data) ∧
    replaceC1300 ("24T").data = ("24T").data :=
  ⟨(C6_slug_and_model "C1300-24T-4X").1, (C6_slug_and_model "C1300-24T-4X").2.1,
   (C6_slug_and_model "24T").2.2.2 (by decide)⟩

end CiscoSMB
